import Mathlib

/-
  Shallow embedding of the analysis-session pipeline of the video-analysis
  repository: capture planning (AdaptiveCaptureStrategy), per-frame inference
  and caching (VLMAnalyzer, DynamicAnalyzer), cross-frame synthesis
  (DynamicAnalyzer.synthesizeResults), and the web server's session management
  (SessionManager, the analyze routes).

  JavaScript strings are modelled as Lean `String` (code points; all inputs of
  interest are ASCII, where JS UTF-16 length and code-point length agree).
  JavaScript numbers carrying video timestamps are modelled as `ℚ`; at the
  concrete durations the claims mention, binary64 arithmetic and exact rational
  arithmetic produce the same values.  Network calls (the OVHcloud inference
  client, the Midscene strategy agent) are passed in as explicit oracles,
  and `Map` caches as association lists threaded through the functions.
-/

/-! ## JS string helpers -/

/-- Truthiness of a nullable JS string: `undefined`/`null` and `""` are falsy. -/
def strTruthy : Option String → Bool
  | none => false
  | some s => !s.isEmpty

/-- Does `hay` contain `needle` as a contiguous subsequence?  Models
`String.prototype.includes` (case-sensitive). -/
def hasInfix (needle : List Char) : List Char → Bool
  | [] => needle.isEmpty
  | c :: cs => needle.isPrefixOf (c :: cs) || hasInfix needle cs

/-- JS `s.includes(sub)`. -/
def strIncludes (s sub : String) : Bool := hasInfix sub.data s.data

/-- JS `s.split('\n')` (also used for `split(':')`), accumulator form. -/
def splitOnCharAux (sep : Char) : List Char → List Char → List (List Char)
  | acc, [] => [acc.reverse]
  | acc, c :: cs =>
    if c = sep then acc.reverse :: splitOnCharAux sep [] cs
    else splitOnCharAux sep (c :: acc) cs

/-- JS `s.split(sep)` for a single-character separator. -/
def splitOnChar (sep : Char) (cs : List Char) : List (List Char) :=
  splitOnCharAux sep [] cs

/-- JS `s.trim()`: strip leading and trailing whitespace. -/
def trimChars (cs : List Char) : List Char :=
  ((cs.dropWhile Char.isWhitespace).reverse.dropWhile Char.isWhitespace).reverse

/-- JS `s.toLowerCase()`. -/
def jsToLower (s : String) : String := String.mk (s.data.map Char.toLower)

/-- Value of a digit string (the digits are already known to be `0`-`9`);
models `parseInt` on a nonempty all-digit capture group. -/
def digitsToNat (ds : List Char) : Nat :=
  ds.foldl (fun a c => a * 10 + (c.toNat - '0'.toNat)) 0

/-- Consume `pat` case-insensitively from the head of the input, returning the
rest of the input on success. -/
def dropCI : List Char → List Char → Option (List Char)
  | [], cs => some cs
  | _ :: _, [] => none
  | p :: ps, c :: cs => if c.toLower = p.toLower then dropCI ps cs else none

/-! ## DynamicAnalyzer.extractConfidence -/

/-- Character class `[:\s]` of the confidence regex. -/
def isConfSep (c : Char) : Bool := c = ':' || c.isWhitespace

/-- First alternative of `/confidence[:\s]*(\d+)%|(\d+)%\s*confident/i`
anchored at the head of the input.  (`[:\s]*` and `\d+` are greedy; since the
separator class, the digit class and `%` are pairwise disjoint, the greedy
match without backtracking is exact.) -/
def confBranch1 (cs : List Char) : Option Nat :=
  match dropCI "confidence".data cs with
  | none => none
  | some rest =>
    let rest2 := rest.dropWhile isConfSep
    let ds := rest2.takeWhile Char.isDigit
    if ds.isEmpty then none
    else
      match rest2.drop ds.length with
      | '%' :: _ => some (digitsToNat ds)
      | _ => none

/-- Second alternative `(\d+)%\s*confident` anchored at the head of the
input. -/
def confBranch2 (cs : List Char) : Option Nat :=
  let ds := cs.takeWhile Char.isDigit
  if ds.isEmpty then none
  else
    match cs.drop ds.length with
    | '%' :: rest =>
      if (dropCI "confident".data (rest.dropWhile Char.isWhitespace)).isSome then
        some (digitsToNat ds)
      else none
    | _ => none

/-- Leftmost match of the confidence regex: JS `String.prototype.match` scans
start positions left to right, trying the first alternative before the
second, and `parseInt` is applied to the digits of the alternative that
matched. -/
def findConfidenceToken : List Char → Option Nat
  | [] => none
  | c :: cs =>
    match confBranch1 (c :: cs) with
    | some n => some n
    | none =>
      match confBranch2 (c :: cs) with
      | some n => some n
      | none => findConfidenceToken cs

/-- Embedding of `DynamicAnalyzer.extractConfidence`: parse an explicit confidence token
from the response text; otherwise fall back to the length/keyword tiers. -/
def extractConfidence (analysisText : String) : Nat :=
  match findConfidenceToken analysisText.data with
  | some n => n
  | none =>
    if analysisText.length > 200 && !(strIncludes analysisText "unclear")
        && !(strIncludes analysisText "difficult") then 85
    else if analysisText.length > 100 then 70
    else 60

/-! ## DynamicAnalyzer.extractKeyFindings -/

/-- Regex `^[-•*]\s+` on a trimmed line. -/
def isBulletLine : List Char → Bool
  | c :: d :: _ => (c = '-' || c = '•' || c = '*') && d.isWhitespace
  | _ => false

/-- Regex `^\d+\.\s+` on a trimmed line. -/
def isNumberedLine (cs : List Char) : Bool :=
  let ds := cs.takeWhile Char.isDigit
  if ds.isEmpty then false
  else
    match cs.drop ds.length with
    | '.' :: w :: _ => w.isWhitespace
    | _ => false

/-- Marker stripping `replace(/^[-•*\d.]\s*/, '')`: the class matches a single character, then
any following whitespace run is removed; with no match the line is kept. -/
def stripMarker : List Char → List Char
  | [] => []
  | c :: rest =>
    if c = '-' || c = '•' || c = '*' || c = '.' || c.isDigit then
      rest.dropWhile Char.isWhitespace
    else c :: rest

/-- One line of `extractKeyFindings`: keep bullet lines, numbered lines and
lines carrying a `Key:`/`Important:` marker, stripped of their list marker. -/
def keyFindingLine (line : List Char) : Option (List Char) :=
  let t := trimChars line
  if isBulletLine t || isNumberedLine t || hasInfix "Key:".data t
      || hasInfix "Important:".data t then
    some (stripMarker t)
  else none

/-- Embedding of `DynamicAnalyzer.extractKeyFindings`: collect marked lines, limited to the
top 5. -/
def extractKeyFindings (analysisText : String) : List String :=
  (((splitOnChar '\n' analysisText.data).filterMap keyFindingLine).map String.mk).take 5

/-! ## AdaptiveCaptureStrategy (capture planning) -/

/-- A capture point is either a timestamp (seconds) or a natural-language
event description. -/
inductive CPKind where
  | timestamp (value : ℚ)
  | event (description : String)
  deriving Repr, DecidableEq

/-- One entry of a capture plan. -/
structure CapturePoint where
  kind : CPKind
  reason : String
  deriving Repr, DecidableEq

/-- A capture plan as produced by `AdaptiveCaptureStrategy`.  `totalFrames` is
`none` for the slide plan, whose JS value is the string `'dynamic'`. -/
structure CapturePlan where
  strategy : String
  totalFrames : Option Nat
  capturePoints : List CapturePoint
  optimizeFor : String
  aiEnhancement : Option String := none
  enhanced : Bool := false
  deriving Repr, DecidableEq

/-- The video metadata consumed by planning. -/
structure VideoInfo where
  duration : Option ℚ := none
  kind : Option String := none
  deriving Repr, DecidableEq

/-- JS `videoInfo?.duration || 300`: a missing object, a missing duration and
a zero duration (falsy) all default to 300 seconds. -/
def jsOrDuration : Option VideoInfo → ℚ
  | none => 300
  | some v =>
    match v.duration with
    | none => 300
    | some d => if d = 0 then 300 else d

/-- JS `Math.round` (round half toward positive infinity). -/
def jsRound (q : ℚ) : ℤ := ⌊q + 1 / 2⌋

/-- Embedding of `createSummaryCapturePlan`. -/
def createSummaryCapturePlan (duration : ℚ) : CapturePlan :=
  { strategy := "summary"
    totalFrames := some 5
    capturePoints := [
      ⟨CPKind.timestamp 0, "Introduction/opening"⟩,
      ⟨CPKind.timestamp (duration * 0.2), "Early content sample"⟩,
      ⟨CPKind.timestamp (duration * 0.5), "Mid-point content"⟩,
      ⟨CPKind.timestamp (duration * 0.8), "Late content sample"⟩,
      ⟨CPKind.timestamp (max (duration - 30) (duration * 0.95)), "Conclusion/summary"⟩]
    optimizeFor := "content_diversity" }

/-- Embedding of `createTimelineCapturePlan`: one point every `max(30, duration/10)`
seconds, for times strictly below `duration` (the JS `for` loop); the number
of iterations is `⌈duration / interval⌉`. -/
def createTimelineCapturePlan (duration : ℚ) : CapturePlan :=
  let interval := max 30 (duration / 10)
  let n := (⌈duration / interval⌉).toNat
  { strategy := "timeline"
    totalFrames := some n
    capturePoints := (List.range n).map fun (k : Nat) =>
      ⟨CPKind.timestamp ((k : ℚ) * interval),
        "Timeline point at " ++ toString (jsRound ((k : ℚ) * interval)) ++ "s"⟩
    optimizeFor := "temporal_progression" }

/-- Embedding of `createCodeCapturePlan`. -/
def createCodeCapturePlan (duration : ℚ) : CapturePlan :=
  { strategy := "code_focused"
    totalFrames := some 5
    capturePoints := [
      ⟨CPKind.event "code editor or IDE visible", "Code demonstration start"⟩,
      ⟨CPKind.timestamp (duration * 0.25), "Early code examples"⟩,
      ⟨CPKind.timestamp (duration * 0.5), "Mid-content code"⟩,
      ⟨CPKind.timestamp (duration * 0.75), "Advanced code examples"⟩,
      ⟨CPKind.event "terminal or console output", "Code execution results"⟩]
    optimizeFor := "code_visibility" }

/-- Embedding of `createSlideCapturePlan` (its `duration` parameter is unused in the
source as well). -/
def createSlideCapturePlan (_duration : ℚ) : CapturePlan :=
  { strategy := "slide_transitions"
    totalFrames := none
    capturePoints := [⟨CPKind.event "slide transition detected", "New slide content"⟩]
    optimizeFor := "slide_content" }

/-- Embedding of `createEducationalCapturePlan`. -/
def createEducationalCapturePlan (duration : ℚ) : CapturePlan :=
  { strategy := "educational"
    totalFrames := some 6
    capturePoints := [
      ⟨CPKind.timestamp 0, "Learning objectives introduction"⟩,
      ⟨CPKind.timestamp (duration * 0.15), "Core concept introduction"⟩,
      ⟨CPKind.timestamp (duration * 0.35), "Example or demonstration"⟩,
      ⟨CPKind.timestamp (duration * 0.55), "Practice or application"⟩,
      ⟨CPKind.timestamp (duration * 0.75), "Advanced concepts"⟩,
      ⟨CPKind.timestamp (duration * 0.9), "Summary or conclusion"⟩]
    optimizeFor := "learning_progression" }

/-- Embedding of `createComprehensiveCapturePlan`. -/
def createComprehensiveCapturePlan (duration : ℚ) : CapturePlan :=
  { strategy := "comprehensive"
    totalFrames := some 6
    capturePoints := [
      ⟨CPKind.timestamp 0, "Opening content"⟩,
      ⟨CPKind.timestamp (duration * 0.2), "Early content"⟩,
      ⟨CPKind.timestamp (duration * 0.4), "First half content"⟩,
      ⟨CPKind.timestamp (duration * 0.6), "Second half content"⟩,
      ⟨CPKind.timestamp (duration * 0.8), "Late content"⟩,
      ⟨CPKind.timestamp (max (duration - 10) (duration * 0.95)), "Closing content"⟩]
    optimizeFor := "balanced_coverage" }

/-- Embedding of `createBasePlan`: keyword dispatch over the lowercased prompt. -/
def createBasePlan (videoInfo : Option VideoInfo) (userPrompt : String) : CapturePlan :=
  let prompt := jsToLower userPrompt
  let duration := jsOrDuration videoInfo
  if strIncludes prompt "summarize" || strIncludes prompt "overview" then
    createSummaryCapturePlan duration
  else if strIncludes prompt "timeline" || strIncludes prompt "progression" then
    createTimelineCapturePlan duration
  else if strIncludes prompt "code" || strIncludes prompt "programming" then
    createCodeCapturePlan duration
  else if strIncludes prompt "slide" || strIncludes prompt "presentation" then
    createSlideCapturePlan duration
  else if strIncludes prompt "teaching" || strIncludes prompt "educational" then
    createEducationalCapturePlan duration
  else
    createComprehensiveCapturePlan duration

/-- Embedding of `createSimpleFallbackPlan`: the minimal 3-point plan used when AI
strategy consultation fails. -/
def createSimpleFallbackPlan (videoInfo : Option VideoInfo) : CapturePlan :=
  let duration := jsOrDuration videoInfo
  { strategy := "fallback"
    totalFrames := some 3
    capturePoints := [
      ⟨CPKind.timestamp 0, "Start"⟩,
      ⟨CPKind.timestamp (duration * 0.5), "Middle"⟩,
      ⟨CPKind.timestamp (duration * 0.9), "End"⟩]
    optimizeFor := "basic_coverage" }

/-- Embedding of `enhancePlanWithAI`: the current source keeps the base plan and records
the AI recommendation verbatim. -/
def enhancePlanWithAI (basePlan : CapturePlan) (aiRecommendation : String) : CapturePlan :=
  { basePlan with aiEnhancement := some aiRecommendation, enhanced := true }

/-- Embedding of `determineCapturePlan`.  The natural-language strategy consultation
(`this.client.agent.ai(...)`) is an oracle: `Except.error` models the call
throwing, which the `catch` turns into the simple fallback plan. -/
def determineCapturePlan (strategyCall : Except String String)
    (videoInfo : Option VideoInfo) (userPrompt : String) : CapturePlan :=
  match strategyCall with
  | Except.error _ => createSimpleFallbackPlan videoInfo
  | Except.ok strategyAnalysis =>
    enhancePlanWithAI (createBasePlan videoInfo userPrompt) strategyAnalysis

/-! ## DynamicAnalyzer synthesis (synthesizeResults and its text heuristics) -/

/-- Embedding of `detectSynthesisType`: keyword dispatch over the lowercased prompt. -/
def detectSynthesisType (userPrompt : String) : String :=
  let prompt := jsToLower userPrompt
  if strIncludes prompt "summarize" || strIncludes prompt "summary" then "summary"
  else if strIncludes prompt "extract" || strIncludes prompt "list" then "extraction"
  else if strIncludes prompt "evaluate" || strIncludes prompt "assess" then "evaluation"
  else if strIncludes prompt "timeline" || strIncludes prompt "timestamp" then "timeline"
  else if strIncludes prompt "report" then "report"
  else if strIncludes prompt "notes" || strIncludes prompt "study" then "study_notes"
  else "comprehensive"

/-- Index of the last `'\n'` in a character list, if any. -/
def lastNewlineIdx (w : List Char) : Option Nat :=
  ((w.enum.filter fun p => p.2 = '\n').map fun p => p.1).getLast?

/-- Length of a match of the section separator `/\n\s*\n/` anchored at the
head of the input, if one starts here.  The greedy-with-backtracking `\s*`
consumes the whitespace run following the first newline up to (and the
separator then includes) the last newline inside that run. -/
def blankSepLen (cs : List Char) : Option Nat :=
  match cs with
  | '\n' :: rest =>
    match lastNewlineIdx (rest.takeWhile Char.isWhitespace) with
    | some k => some (k + 2)
    | none => none
  | _ => none

/-- JS `synthesisText.split(/\n\s*\n/)`, accumulator form: split at each
leftmost non-overlapping separator match. -/
def splitBlankAux : List Char → List Char → List (List Char)
  | acc, [] => [acc.reverse]
  | acc, c :: cs =>
    match blankSepLen (c :: cs) with
    | some n => acc.reverse :: splitBlankAux [] (cs.drop (n - 1))
    | none => splitBlankAux (c :: acc) cs
  termination_by _ l => l.length
  decreasing_by all_goals (simp; try omega)

/-- Embedding of `extractKeyThemes`: from blank-line-separated sections carrying a
`Theme:`/`Topic:`/`Key area:` marker, take the text after the first colon,
trimmed, when nonempty; limited to 3. -/
def extractKeyThemes (synthesisText : String) : List String :=
  (((splitBlankAux [] synthesisText.data).filterMap fun sect =>
    if hasInfix "Theme:".data sect || hasInfix "Topic:".data sect
        || hasInfix "Key area:".data sect then
      match (splitOnChar ':' sect).drop 1 with
      | t :: _ =>
        let t2 := trimChars t
        if t2.isEmpty then none else some t2
      | [] => none
    else none).map String.mk).take 3

/-- Embedding of `extractActionableInsights`: lines containing a recommendation verb,
trimmed; limited to 3. -/
def extractActionableInsights (synthesisText : String) : List String :=
  (((splitOnChar '\n' synthesisText.data).filterMap fun line =>
    if hasInfix "recommend".data line || hasInfix "suggest".data line
        || hasInfix "should".data line || hasInfix "could improve".data line then
      some (trimChars line)
    else none).map String.mk).take 3

/-- Sentence-ending class `[.!?]` of `createExecutiveSummary`. -/
def isSentEnd (c : Char) : Bool := c = '.' || c = '!' || c = '?'

/-- JS `synthesisText.split(/[.!?]+/)`: separators are maximal nonempty runs
of sentence-ending punctuation. -/
def splitSentAux : List Char → List Char → List (List Char)
  | acc, [] => [acc.reverse]
  | acc, c :: cs =>
    if isSentEnd c then acc.reverse :: splitSentAux [] (cs.dropWhile isSentEnd)
    else splitSentAux (c :: acc) cs
  termination_by _ l => l.length
  decreasing_by all_goals first
    | exact Nat.lt_succ_of_le ((List.dropWhile_sublist _).length_le)
    | simp

/-- Join a list of character lists with `". "`; models `Array.join('. ')`. -/
def joinDotSpace : List (List Char) → List Char
  | [] => []
  | [s] => s
  | s :: rest => s ++ '.' :: ' ' :: joinDotSpace rest

/-- Embedding of `createExecutiveSummary`: the first two long sentences containing a
summary-signalling word, joined and trimmed, with a final period. -/
def createExecutiveSummary (synthesisText : String) : String :=
  let sentences := splitSentAux [] synthesisText.data
  let important := (sentences.filter fun s =>
    20 < s.length && (hasInfix "overall".data s || hasInfix "main".data s
      || hasInfix "key".data s || hasInfix "important".data s)).take 2
  String.mk (trimChars (joinDotSpace important) ++ ['.'])

/-- A per-frame analysis record as built by `DynamicAnalyzer`.  Success
records set `analysis`, `confidence`, `keyFindings`, `frameNumber`; the
records pushed by the `catch` in `analyzeContent` set only `frame`,
`timestamp`, `error` and `userPrompt`.  Absent JS fields are `none`. -/
structure FrameAnalysis where
  frame : String := ""
  timestamp : Option ℚ := none
  context : Option String := none
  analysis : Option String := none
  confidence : Option Nat := none
  keyFindings : List String := []
  frameNumber : Option Nat := none
  userPrompt : String := ""
  error : Option String := none
  deriving Repr, DecidableEq

/-- The filter `a => !a.error && a.analysis` of `synthesizeResults`
(JS truthiness on both fields). -/
def isValidAnalysis (a : FrameAnalysis) : Bool :=
  !strTruthy a.error && strTruthy a.analysis

/-- The synthesized cross-frame result. -/
structure SynthesizedResult where
  synthesisType : String
  comprehensiveResponse : String
  framesSynthesized : Nat
  keyThemes : List String
  actionableInsights : List String
  summary : String
  deriving Repr, DecidableEq

/-- Failure modes of `synthesizeResults`: the spec's `NoValidInput`
(JS `throw new Error('No valid frame analyses to synthesize')`) and a failed
synthesis inference call. -/
inductive SynthesisError where
  | noValidInput
  | synthesisFailed (msg : String)
  deriving Repr, DecidableEq

/-- Embedding of `DynamicAnalyzer.synthesizeResults`.  The single inference call
(`client.analyzeImage(null, synthesisPrompt, ...)`) is the `synthesisCall`
oracle; the synthesis prompt it receives does not influence control flow. -/
def synthesizeResults (synthesisCall : Except String String) (userPrompt : String)
    (frameAnalyses : List FrameAnalysis) : Except SynthesisError SynthesizedResult :=
  let validAnalyses := frameAnalyses.filter isValidAnalysis
  if validAnalyses.isEmpty then Except.error SynthesisError.noValidInput
  else
    match synthesisCall with
    | Except.error e => Except.error (SynthesisError.synthesisFailed e)
    | Except.ok text =>
      Except.ok
        { synthesisType := detectSynthesisType userPrompt
          comprehensiveResponse := text
          framesSynthesized := validAnalyses.length
          keyThemes := extractKeyThemes text
          actionableInsights := extractActionableInsights text
          summary := createExecutiveSummary text }

/-! ## Shared cache and client modelling -/

/-- Association-list lookup (first match wins); models `Map.get` given that
insertion conses the fresh binding, so the freshest binding for a key is
found first, as with `Map.set` overwriting. -/
def alookup {β : Type} (k : String) : List (String × β) → Option β
  | [] => none
  | (k2, v) :: rest => if k2 = k then some v else alookup k rest

/-- Outcome of one `ovhClient.analyzeImage` call: a successful response text,
a `success: false` response carrying `error`, or a thrown exception. -/
inductive InferOutcome where
  | ok (analysis : String)
  | fail (error : String)
  | thrown (msg : String)
  deriving Repr, DecidableEq

/-! ## VLMAnalyzer.analyzeContentBatch -/

/-- A screenshot handed to the VLM batch analyzer (its image bytes are opaque
to control flow and omitted). -/
structure Screenshot where
  filename : String
  context : String := ""
  timestamp : Option ℚ := none
  deriving Repr, DecidableEq

/-- One entry of the batch result list.  Success entries set `analysis`;
failed entries set `error`; JS fields absent from a branch are `none`.
(`usage` and `processedAt` carry no information relevant to the contracts
and are omitted.) -/
structure BatchResult where
  filename : String
  context : String
  timestamp : Option ℚ := none
  analysis : Option String := none
  error : Option String := none
  analysisType : String
  deriving Repr, DecidableEq

/-- The VLM analysis cache (`this.analysisCache`). -/
abbrev VLMCache := List (String × BatchResult)

/-- The cache key `` `${screenshot.filename}_${analysisType}` ``. -/
def vlmCacheKey (s : Screenshot) (analysisType : String) : String :=
  s.filename ++ "_" ++ analysisType

/-- The body of one batch promise in `analyzeContentBatch`: cache check, then
the inference call; a failed or thrown call becomes an errored entry.  The
second component is true exactly when the entry is a freshly computed success
that the JS code inserts into the cache. -/
def analyzeOneScreenshot (cacheEnabled : Bool) (analysisType : String)
    (cache : VLMCache) (outcome : InferOutcome) (s : Screenshot) :
    BatchResult × Bool :=
  match (if cacheEnabled then alookup (vlmCacheKey s analysisType) cache else none) with
  | some cached => (cached, false)
  | none =>
    match outcome with
    | InferOutcome.ok text =>
      ({ filename := s.filename, context := s.context, timestamp := s.timestamp,
         analysis := some text, analysisType := analysisType }, cacheEnabled)
    | InferOutcome.fail e =>
      ({ filename := s.filename, context := s.context, error := some e,
         analysisType := analysisType }, false)
    | InferOutcome.thrown m =>
      ({ filename := s.filename, context := s.context, error := some m,
         analysisType := analysisType }, false)

/-- The `screenshots.slice(i, i + batchSize)` chunking of the batch loop
(`batchSize ≥ 1`; the configured `maxConcurrent` defaults to 3 and is never
0, for which the JS loop would not terminate). -/
def chunkList {α : Type} (n : Nat) : List α → List (List α)
  | [] => []
  | x :: xs => (x :: xs.take (n - 1)) :: chunkList n (xs.drop (n - 1))
  termination_by l => l.length
  decreasing_by all_goals (simp; try omega)

/-- Process the batches in order.  All cache checks of one batch read the
cache as it stood when the batch started (each promise body runs
synchronously up to its first await, before any write of the same batch);
the successful fresh results of the batch are then inserted.  JS insertion
order within a batch is completion order; it is modelled as batch order,
which yields the same lookup behaviour.  The inter-batch rate-limiting pause
has no observable effect here and is not modelled. -/
def runVLMChunks (cacheEnabled : Bool) (analysisType : String)
    (client : Nat → InferOutcome) :
    VLMCache → List (List (Nat × Screenshot)) → List BatchResult × VLMCache
  | cache, [] => ([], cache)
  | cache, chunk :: rest =>
    let rs := chunk.map fun p =>
      (p, analyzeOneScreenshot cacheEnabled analysisType cache (client p.1) p.2)
    let cache2 := rs.foldl
      (fun c pr => if pr.2.2 then (vlmCacheKey pr.1.2 analysisType, pr.2.1) :: c else c)
      cache
    let next := runVLMChunks cacheEnabled analysisType client cache2 rest
    ((rs.map fun pr => pr.2.1) ++ next.1, next.2)

/-- Embedding of `VLMAnalyzer.analyzeContentBatch`.  The inference client is an oracle
indexed by the screenshot's position in the input list. -/
def analyzeContentBatch (batchSize : Nat) (cacheEnabled : Bool)
    (client : Nat → InferOutcome) (cache : VLMCache)
    (screenshots : List Screenshot) (analysisType : String) :
    List BatchResult × VLMCache :=
  runVLMChunks cacheEnabled analysisType client cache
    (chunkList batchSize screenshots.enum)

/-! ## DynamicAnalyzer: analyzeFrame and the analyzeContent loop -/

/-- A captured frame handed to `DynamicAnalyzer` (image bytes omitted: they
do not influence control flow). -/
structure Frame where
  filename : Option String := none
  timestamp : Option ℚ := none
  context : Option String := none
  deriving Repr, DecidableEq

/-- Signed 32-bit coercion (JS `| 0`, `& -1`, `<<` wrapping). -/
def toInt32 (n : ℤ) : ℤ := (n + 2 ^ 31) % 2 ^ 32 - 2 ^ 31

/-- One step of `hashPrompt`: `hash = ((hash << 5) - hash) + char` followed
by `hash = hash & hash` (coercion to a signed 32-bit integer).  The shift
itself wraps to 32 bits; the subtraction and addition are exact in binary64
at these magnitudes. -/
def hashPromptStep (hash : ℤ) (c : Char) : ℤ :=
  toInt32 (toInt32 (hash * 32) - hash + c.toNat)

/-- Embedding of `DynamicAnalyzer.hashPrompt`, rendered in decimal as JS `toString`. -/
def hashPrompt (prompt : String) : String :=
  toString (prompt.data.foldl hashPromptStep 0)

/-- The `analyzeFrame` cache key
`` `${frame.filename || frameNumber}_${this.hashPrompt(userPrompt)}` ``. -/
def daCacheKey (f : Frame) (frameNumber : Nat) (userPrompt : String) : String :=
  (match f.filename with
   | some s => if s.isEmpty then toString frameNumber else s
   | none => toString frameNumber) ++ "_" ++ hashPrompt userPrompt

/-- The frame display name `` frame.filename || `frame_${n}` `` as used in both
the success record and the error record of the per-frame loop. -/
def frameName (f : Frame) (frameNumber : Nat) : String :=
  match f.filename with
  | some s => if s.isEmpty then "frame_" ++ toString frameNumber else s
  | none => "frame_" ++ toString frameNumber

/-- Embedding of `frame.timestamp || null` (a zero timestamp is falsy). -/
def jsTimestampOrNull : Option ℚ → Option ℚ
  | some q => if q = 0 then none else some q
  | none => none

/-- Embedding of `frame.context || 'unknown'`. -/
def jsContextOrUnknown : Option String → String
  | some s => if s.isEmpty then "unknown" else s
  | none => "unknown"

/-- The success record built by `analyzeFrame` (its `processedAt` timestamp
is omitted). -/
def mkFrameRecord (f : Frame) (frameNumber : Nat) (userPrompt text : String) :
    FrameAnalysis :=
  { frame := frameName f frameNumber
    timestamp := jsTimestampOrNull f.timestamp
    context := some (jsContextOrUnknown f.context)
    analysis := some text
    confidence := some (extractConfidence text)
    keyFindings := extractKeyFindings text
    frameNumber := some frameNumber
    userPrompt := userPrompt }

/-- The `DynamicAnalyzer` mutable state: its analysis cache and the number of
inference calls issued so far (the call counter indexes the client oracle,
so that the network traffic of a run is observable). -/
structure DAState where
  cache : List (String × FrameAnalysis) := []
  calls : Nat := 0
  deriving Repr, DecidableEq

/-- Embedding of `DynamicAnalyzer.analyzeFrame`: cache check, inference call, cache
insertion on success; a failed or thrown call is rethrown wrapped in
`Frame analysis failed:` (the inner `AI analysis failed:` wrapper applies to
a `success: false` response). -/
def analyzeFrame (cacheEnabled : Bool) (client : Nat → InferOutcome)
    (st : DAState) (f : Frame) (userPrompt : String) (frameNumber : Nat) :
    Except String FrameAnalysis × DAState :=
  let key := daCacheKey f frameNumber userPrompt
  match (if cacheEnabled then alookup key st.cache else none) with
  | some cached => (Except.ok cached, st)
  | none =>
    let st2 : DAState := { st with calls := st.calls + 1 }
    match client st.calls with
    | InferOutcome.ok text =>
      let r := mkFrameRecord f frameNumber userPrompt text
      (Except.ok r,
       if cacheEnabled then { st2 with cache := (key, r) :: st2.cache } else st2)
    | InferOutcome.fail e =>
      (Except.error ("Frame analysis failed: AI analysis failed: " ++ e), st2)
    | InferOutcome.thrown m =>
      (Except.error ("Frame analysis failed: " ++ m), st2)

/-- The per-frame loop of `DynamicAnalyzer.analyzeContent`: each frame is
analyzed in turn, and a frame whose analysis throws is downgraded to an
errored record in place rather than aborting the loop.  `i` is the 0-based
loop index. -/
def frameLoop (cacheEnabled : Bool) (client : Nat → InferOutcome)
    (userPrompt : String) :
    DAState → List Frame → Nat → List FrameAnalysis × DAState
  | st, [], _ => ([], st)
  | st, f :: fs, i =>
    let step := analyzeFrame cacheEnabled client st f userPrompt (i + 1)
    let entry :=
      match step.1 with
      | Except.ok fa => fa
      | Except.error m =>
        { frame := frameName f (i + 1), timestamp := f.timestamp,
          error := some m, userPrompt := userPrompt }
    let rest := frameLoop cacheEnabled client userPrompt step.2 fs (i + 1)
    (entry :: rest.1, rest.2)

/-- The success payload of `analyzeContent`. -/
structure AnalyzeContentOk where
  userPrompt : String
  totalFrames : Nat
  frameAnalyses : List FrameAnalysis
  synthesizedResult : SynthesizedResult
  deriving Repr, DecidableEq

/-- Embedding of `DynamicAnalyzer.analyzeContent`: input validation, the per-frame loop,
then synthesis; a synthesis failure is caught and turns the whole run into a
failure result. -/
def analyzeContent (cacheEnabled : Bool) (client : Nat → InferOutcome)
    (synthesisCall : Except String String) (st : DAState)
    (userPrompt : String) (capturedFrames : List Frame) :
    Except String AnalyzeContentOk × DAState :=
  if userPrompt.isEmpty || capturedFrames.isEmpty then
    (Except.error "Invalid analysis inputs", st)
  else
    let run := frameLoop cacheEnabled client userPrompt st capturedFrames 0
    match synthesizeResults synthesisCall userPrompt run.1 with
    | Except.error SynthesisError.noValidInput =>
      (Except.error "Result synthesis failed: No valid frame analyses to synthesize", run.2)
    | Except.error (SynthesisError.synthesisFailed e) =>
      (Except.error ("Result synthesis failed: Synthesis failed: " ++ e), run.2)
    | Except.ok sr =>
      (Except.ok { userPrompt := userPrompt, totalFrames := capturedFrames.length,
                   frameAnalyses := run.1, synthesizedResult := sr }, run.2)

/-! ## SessionManager and the analyze routes -/

/-- A web-UI analysis session (`SessionManager.createSession` shape).  The
opaque settings, url and date fields carry no invariant and are omitted; the
`results` payload is opaque and modelled as a string. -/
structure WebSession where
  status : String := "initializing"
  progress : Nat := 0
  results : Option String := none
  error : Option String := none
  prompt : String := ""
  deriving Repr, DecidableEq

/-- Embedding of `SessionManager.createSession`. -/
def createSession (prompt : String) : WebSession :=
  { status := "initializing", progress := 0, results := none, error := none,
    prompt := prompt }

/-- A partial update as passed to `updateSession`; `none` models a field
absent from the JS update object. -/
structure SessionUpdate where
  status : Option String := none
  progress : Option Nat := none
  results : Option String := none
  error : Option String := none
  deriving Repr, DecidableEq

/-- Embedding of `SessionManager.updateSession` on a present session:
`Object.assign(session, updates)` overwrites exactly the fields present in
the update (the `updatedAt` refresh is omitted). -/
def updateSession (s : WebSession) (u : SessionUpdate) : WebSession :=
  { s with
    status := u.status.getD s.status
    progress := u.progress.getD s.progress
    results := u.results <|> s.results
    error := u.error <|> s.error }

/-- The pipeline stages of the background analyzer between the route's
initial updates and its final one. -/
inductive Stage where
  | navigating
  | detectingPlayer
  | capturing
  | analyzing
  | synthesizing
  deriving Repr, DecidableEq

/-- Position of a stage in the pipeline order. -/
def stageIdx : Stage → Nat
  | Stage.navigating => 0
  | Stage.detectingPlayer => 1
  | Stage.capturing => 2
  | Stage.analyzing => 3
  | Stage.synthesizing => 4

/-- Modelled from the spec: the web-UI analyzer driving `onProgress` and
`onStatus` (`analyzeFromPrompt`) is not part of the sources; spec section 4.1
assigns per-stage progress floors (navigation up to 25, detection 25 to 40,
capture 40 to 70, analysis 70 to 90, synthesis 90 to 100) so that the value
never decreases.  The navigation floor is 10 here because `startAnalysis`
itself has already reported progress 10 before delegating to the analyzer. -/
def stageLo : Stage → Nat
  | Stage.navigating => 10
  | Stage.detectingPlayer => 25
  | Stage.capturing => 40
  | Stage.analyzing => 70
  | Stage.synthesizing => 90

/-- Modelled from the spec: per-stage progress ceilings (see `stageLo`). -/
def stageHi : Stage → Nat
  | Stage.navigating => 25
  | Stage.detectingPlayer => 40
  | Stage.capturing => 70
  | Stage.analyzing => 90
  | Stage.synthesizing => 100

/-- Modelled from the spec: the status string a stage reports through
`onStatus` (spec section 4.1 state names); all are non-terminal. -/
def stageStatus : Stage → String
  | Stage.navigating => "navigating"
  | Stage.detectingPlayer => "detecting_player"
  | Stage.capturing => "capturing"
  | Stage.analyzing => "analyzing"
  | Stage.synthesizing => "synthesizing"

/-- An event emitted by the background analyzer while `analyzeFromPrompt`
runs: a progress report (the stage it belongs to is bookkeeping for the
spec's floor discipline) or a status report. -/
inductive AnalyzerEvent where
  | progressEv (st : Stage) (value : Nat)
  | statusEv (st : Stage)
  deriving Repr, DecidableEq

/-- The session update the route's callbacks perform for one analyzer event:
`onProgress` writes the value and hardcodes status `analyzing`; `onStatus`
writes the reported status. -/
def analyzerUpdate : AnalyzerEvent → SessionUpdate
  | AnalyzerEvent.progressEv _ v => { status := some "analyzing", progress := some v }
  | AnalyzerEvent.statusEv st => { status := some (stageStatus st) }

/-- The final update of `startAnalysis`: `completed` with progress 100 and
the results on success, `failed` with the error message on failure. -/
def finalUpdate : Except String String → SessionUpdate
  | Except.ok r => { status := some "completed", progress := some 100, results := some r }
  | Except.error m => { status := some "failed", error := some m }

/-- The full sequence of `updateSession` calls one `startAnalysis` run
performs: the initial reset, the `navigating`/10 report, the analyzer-driven
callback updates, and the terminal update. -/
def startAnalysisUpdates (evs : List AnalyzerEvent) (outcome : Except String String) :
    List SessionUpdate :=
  { status := some "initializing", progress := some 0 }
    :: { status := some "navigating", progress := some 10 }
    :: (evs.map analyzerUpdate ++ [finalUpdate outcome])

/-- The trace of session states visited while applying a list of updates in
order, starting state included. -/
def sessionTrace (s : WebSession) : List SessionUpdate → List WebSession
  | [] => [s]
  | u :: us => s :: sessionTrace (updateSession s u) us

/-- The discipline the analyzer's progress reports obey, carried along the
event list: each report either moves to a later stage and starts at or above
that stage's floor, or stays in the current stage and does not decrease; it
never exceeds the stage ceiling.  (`ps`, `pv` are the current stage and the
last reported value.) -/
def stageEventsOK : Stage → Nat → List AnalyzerEvent → Prop
  | _, _, [] => True
  | ps, pv, AnalyzerEvent.statusEv _ :: r => stageEventsOK ps pv r
  | ps, pv, AnalyzerEvent.progressEv st p :: r =>
    ((stageIdx ps < stageIdx st ∧ stageLo st ≤ p) ∨ (st = ps ∧ pv ≤ p))
      ∧ p ≤ stageHi st ∧ stageEventsOK st p r

/-- Non-decreasing progress values along a list of updates, relative to the
current progress value (updates that do not carry progress are skipped). -/
def updatesMono : Nat → List SessionUpdate → Prop
  | _, [] => True
  | cur, u :: us =>
    match u.progress with
    | none => updatesMono cur us
    | some p => cur ≤ p ∧ updatesMono p us

/-- A status is terminal when it is `completed` or `failed`. -/
def isTerminalStatus (st : String) : Bool := st = "completed" || st = "failed"

/-- The result/error invariant of a session record: a terminal session
carries exactly one of a result and an error; a non-terminal one carries
neither. -/
def resultErrorInvariant (s : WebSession) : Prop :=
  if isTerminalStatus s.status then
    (s.results.isSome ∧ s.error = none) ∨ (s.results = none ∧ s.error.isSome)
  else s.results = none ∧ s.error = none

/-! ## The web server state and the cancel route -/

/-- The server-side state relevant to cancellation: the session map, whether
a background `startAnalysis` task is still running for it, and whether the
browser/navigation resource has been released.  The latter two flags model
the in-flight analysis that the DELETE route would have to signal. -/
structure ServerState where
  sessions : List (String × WebSession) := []
  analysisRunning : Bool := false
  browserReleased : Bool := false
  deriving Repr, DecidableEq

/-- Embedding of `SessionManager.deleteSession`: remove the session from the map (and
broadcast `session_deleted`, which has no further state effect); nothing
else. -/
def deleteSession (st : ServerState) (sessionId : String) :
    Option WebSession × ServerState :=
  match alookup sessionId st.sessions with
  | some s =>
    (some s, { st with sessions := st.sessions.filter fun p => p.1 != sessionId })
  | none => (none, st)

/-- The DELETE `/:sessionId` route: delete the session and reply; the
response is (status code, message).  The running analysis is untouched (the
source carries a TODO to actually cancel it). -/
def cancelRoute (st : ServerState) (sessionId : String) :
    (Nat × String) × ServerState :=
  match deleteSession st sessionId with
  | (some _, st2) => ((200, "Analysis cancelled successfully"), st2)
  | (none, st2) => ((404, "Session not found"), st2)

/-! ## Invariant predicates used by the theorems -/

/-- Every timestamp point of a plan lies within `[lo, hi]` (event points
impose no timing constraint). -/
def timestampsWithin (plan : CapturePlan) (lo hi : ℚ) : Bool :=
  plan.capturePoints.all fun p =>
    match p.kind with
    | CPKind.timestamp v => decide (lo ≤ v) && decide (v ≤ hi)
    | CPKind.event _ => true

/-- The VLM analysis cache invariant: every entry is keyed by its record's
filename and the current analysis type, and is a success record. -/
def vlmCacheInv (analysisType : String) (cache : VLMCache) : Prop :=
  ∀ e ∈ cache, e.1 = e.2.filename ++ "_" ++ analysisType ∧ e.2.error = none

/-- The `DynamicAnalyzer` cache invariant: every cached record is a success
(no error, analysis text present). -/
def daCacheOnlySuccess (cache : List (String × FrameAnalysis)) : Prop :=
  ∀ e ∈ cache, e.2.error = none ∧ e.2.analysis.isSome = true

/-! ## Helper lemmas -/

lemma alookup_mem {β : Type} (k : String) (v : β) :
    ∀ l : List (String × β), alookup k l = some v → (k, v) ∈ l := by
  intro l
  induction l with
  | nil => intro h; simp [alookup] at h
  | cons p rest ih =>
    intro h
    rcases p with ⟨k2, v2⟩
    by_cases hk : k2 = k
    · subst hk
      simp [alookup] at h
      subst h
      exact List.mem_cons_self _ _
    · simp only [alookup, if_neg hk] at h
      exact List.mem_cons_of_mem _ (ih h)

lemma string_append_cancel_right (a b c : String) (h : a ++ c = b ++ c) : a = b := by
  have hd : a.data ++ c.data = b.data ++ c.data := by
    have := congrArg String.data h
    simpa [String.data_append] using this
  have h2 : a.data = b.data := List.append_left_injective c.data hd
  cases a
  cases b
  exact congrArg String.mk h2

lemma chunkList_join_of_le {α : Type} (n : Nat) :
    ∀ (k : Nat) (l : List α), l.length ≤ k → (chunkList n l).flatten = l := by
  intro k
  induction k with
  | zero =>
    intro l hl
    have : l = [] := by cases l <;> simp_all
    subst this
    simp [chunkList]
  | succ k ih =>
    intro l hl
    cases l with
    | nil => simp [chunkList]
    | cons x xs =>
      rw [chunkList]
      have hdrop : (xs.drop (n - 1)).length ≤ k := by
        have := List.length_drop (n - 1) xs
        simp at hl
        omega
      rw [List.flatten_cons, ih _ hdrop]
      simp [List.take_append_drop]

lemma chunkList_join {α : Type} (n : Nat) (l : List α) :
    (chunkList n l).flatten = l :=
  chunkList_join_of_le n l.length l le_rfl

lemma analyzeOneScreenshot_filename (ce : Bool) (t : String) (cache : VLMCache)
    (o : InferOutcome) (s : Screenshot) (hinv : vlmCacheInv t cache) :
    (analyzeOneScreenshot ce t cache o s).1.filename = s.filename := by
  unfold analyzeOneScreenshot
  rcases hce : (if ce then alookup (vlmCacheKey s t) cache else none) with _ | cached
  · cases o <;> rfl
  · have hl : alookup (vlmCacheKey s t) cache = some cached := by
      cases ce
      · simp at hce
      · simpa using hce
    have hmem := alookup_mem _ _ _ hl
    have hkey := (hinv _ hmem).1
    have : s.filename ++ "_" ++ t = cached.filename ++ "_" ++ t := hkey
    have h2 : s.filename ++ "_" = cached.filename ++ "_" :=
      string_append_cancel_right _ _ _ this
    have h3 : s.filename = cached.filename :=
      string_append_cancel_right _ _ _ h2
    simp [h3]

lemma analyzeOneScreenshot_cacheFlag (ce : Bool) (t : String) (cache : VLMCache)
    (o : InferOutcome) (s : Screenshot) :
    (analyzeOneScreenshot ce t cache o s).2 = true →
    (analyzeOneScreenshot ce t cache o s).1.filename = s.filename
      ∧ (analyzeOneScreenshot ce t cache o s).1.error = none := by
  unfold analyzeOneScreenshot
  rcases (if ce then alookup (vlmCacheKey s t) cache else none) with _ | cached
  · cases o <;> simp
  · simp

lemma foldl_insert_inv (ce : Bool) (t : String) (client : Nat → InferOutcome) :
    ∀ (chunk : List (Nat × Screenshot)) (cache0 cache : VLMCache),
    vlmCacheInv t cache0 → vlmCacheInv t cache →
    vlmCacheInv t
      ((chunk.map fun p =>
          (p, analyzeOneScreenshot ce t cache0 (client p.1) p.2)).foldl
        (fun c pr => if pr.2.2 then (vlmCacheKey pr.1.2 t, pr.2.1) :: c else c)
        cache) := by
  intro chunk
  induction chunk with
  | nil => intro cache0 cache h0 h; simpa using h
  | cons p rest ih =>
    intro cache0 cache h0 h
    simp only [List.map_cons, List.foldl_cons]
    by_cases hflag : (analyzeOneScreenshot ce t cache0 (client p.1) p.2).2 = true
    · rw [if_pos hflag]
      apply ih _ _ h0
      intro e he
      rcases List.mem_cons.mp he with rfl | he2
      · have hf := analyzeOneScreenshot_cacheFlag ce t cache0 (client p.1) p.2 hflag
        constructor
        · simp [vlmCacheKey, hf.1]
        · exact hf.2
      · exact h e he2
    · rw [if_neg hflag]
      exact ih _ _ h0 h

lemma runVLMChunks_spec (ce : Bool) (t : String) (client : Nat → InferOutcome) :
    ∀ (chunks : List (List (Nat × Screenshot))) (cache : VLMCache),
    vlmCacheInv t cache →
    (runVLMChunks ce t client cache chunks).1.map BatchResult.filename
        = chunks.flatten.map (fun p => p.2.filename)
      ∧ vlmCacheInv t (runVLMChunks ce t client cache chunks).2 := by
  intro chunks
  induction chunks with
  | nil => intro cache h; exact ⟨rfl, h⟩
  | cons chunk rest ih =>
    intro cache h
    have hinv2 : vlmCacheInv t
        ((chunk.map fun p =>
            (p, analyzeOneScreenshot ce t cache (client p.1) p.2)).foldl
          (fun c pr => if pr.2.2 then (vlmCacheKey pr.1.2 t, pr.2.1) :: c else c)
          cache) :=
      foldl_insert_inv ce t client chunk cache cache h h
    have hrest := ih _ hinv2
    constructor
    · simp only [runVLMChunks, List.flatten_cons, List.map_append]
      rw [hrest.1]
      congr 1
      rw [List.map_map, List.map_map]
      apply List.map_congr_left
      intro p _
      exact analyzeOneScreenshot_filename ce t cache (client p.1) p.2 h
    · simpa only [runVLMChunks] using hrest.2

lemma enum_map_snd_filename (screenshots : List Screenshot) :
    screenshots.enum.map (fun p => p.2.filename) = screenshots.map Screenshot.filename := by
  rw [show (fun p : Nat × Screenshot => p.2.filename)
        = Screenshot.filename ∘ Prod.snd from rfl]
  rw [← List.map_map, List.enum_map_snd]

lemma frameLoop_length (ce : Bool) (client : Nat → InferOutcome) (p : String) :
    ∀ (frames : List Frame) (st : DAState) (i : Nat),
    (frameLoop ce client p st frames i).1.length = frames.length := by
  intro frames
  induction frames with
  | nil => intro st i; rfl
  | cons f fs ih =>
    intro st i
    simp [frameLoop, ih]

lemma frameLoop_map_frame_uncached (client : Nat → InferOutcome) (p : String) :
    ∀ (frames : List Frame) (st : DAState) (i : Nat),
    (frameLoop false client p st frames i).1.map FrameAnalysis.frame
      = (List.enumFrom i frames).map fun q => frameName q.2 (q.1 + 1) := by
  intro frames
  induction frames with
  | nil => intro st i; rfl
  | cons f fs ih =>
    intro st i
    simp only [frameLoop, List.enumFrom, List.map_cons, ih]
    congr 1
    unfold analyzeFrame
    simp only [if_neg (Bool.false_ne_true)]
    rcases client st.calls with text | e | m
    · rfl
    · rfl
    · rfl

lemma jsOrDuration_pos (videoInfo : Option VideoInfo)
    (hdur : ∀ v, videoInfo = some v → ∀ d, v.duration = some d → 0 ≤ d) :
    0 < jsOrDuration videoInfo := by
  rcases videoInfo with _ | v
  · norm_num [jsOrDuration]
  · rcases hv : v.duration with _ | d
    · simp [jsOrDuration, hv]
    · have h0 := hdur v rfl d hv
      simp only [jsOrDuration, hv]
      split_ifs with he
      · norm_num
      · exact lt_of_le_of_ne h0 (Ne.symm he)

lemma createTimelineCapturePlan_length (duration : ℚ) :
    (createTimelineCapturePlan duration).capturePoints.length
      = (⌈duration / max 30 (duration / 10)⌉).toNat := by
  rw [show (createTimelineCapturePlan duration).capturePoints
        = (List.range ((⌈duration / max 30 (duration / 10)⌉).toNat)).map
            (fun (k : Nat) => (⟨CPKind.timestamp ((k : ℚ) * max 30 (duration / 10)),
                "Timeline point at "
                  ++ toString (jsRound ((k : ℚ) * max 30 (duration / 10))) ++ "s"⟩
              : CapturePoint)) from rfl]
  rw [List.length_map, List.length_range]

lemma createTimelineCapturePlan_ne_nil (duration : ℚ) (hd : 0 < duration) :
    (createTimelineCapturePlan duration).capturePoints ≠ [] := by
  have hint : (0 : ℚ) < max 30 (duration / 10) := lt_max_of_lt_left (by norm_num)
  have hq : 0 < duration / max 30 (duration / 10) := div_pos hd hint
  have hc : 0 < ⌈duration / max 30 (duration / 10)⌉ := Int.ceil_pos.mpr hq
  intro h
  have h0 := createTimelineCapturePlan_length duration
  rw [h] at h0
  simp only [List.length_nil] at h0
  omega

lemma createBasePlan_ne_nil (videoInfo : Option VideoInfo) (userPrompt : String)
    (hdur : ∀ v, videoInfo = some v → ∀ d, v.duration = some d → 0 ≤ d) :
    (createBasePlan videoInfo userPrompt).capturePoints ≠ [] := by
  have hd := jsOrDuration_pos videoInfo hdur
  simp only [createBasePlan]
  split_ifs
  · simp [createSummaryCapturePlan]
  · exact createTimelineCapturePlan_ne_nil _ hd
  · simp [createCodeCapturePlan]
  · simp [createSlideCapturePlan]
  · simp [createEducationalCapturePlan]
  · simp [createComprehensiveCapturePlan]

lemma stageHi_le_100 (s : Stage) : stageHi s ≤ 100 := by
  cases s <;> simp [stageHi]

lemma stageHi_le_stageLo (s1 s2 : Stage) (h : stageIdx s1 < stageIdx s2) :
    stageHi s1 ≤ stageLo s2 := by
  cases s1 <;> cases s2 <;> simp [stageIdx, stageHi, stageLo] at h ⊢

lemma stage_updatesMono :
    ∀ (evs : List AnalyzerEvent) (ps : Stage) (pv : Nat) (tail : List SessionUpdate),
    stageEventsOK ps pv evs → pv ≤ stageHi ps →
    (∀ c, c ≤ 100 → updatesMono c tail) →
    updatesMono pv (evs.map analyzerUpdate ++ tail) := by
  intro evs
  induction evs with
  | nil =>
    intro ps pv tail _ hle htail
    exact htail pv (le_trans hle (stageHi_le_100 ps))
  | cons ev rest ih =>
    intro ps pv tail hok hle htail
    cases ev with
    | statusEv st =>
      simp only [List.map_cons, List.cons_append]
      show updatesMono pv ({ status := some (stageStatus st) } :: _)
      simp only [updatesMono]
      exact ih ps pv tail hok hle htail
    | progressEv st p =>
      rcases hok with ⟨hjump, hhi, hrest⟩
      have hpv : pv ≤ p := by
        rcases hjump with ⟨hidx, hlo⟩ | ⟨rfl, hmono⟩
        · exact le_trans hle (le_trans (stageHi_le_stageLo ps st hidx) hlo)
        · exact hmono
      simp only [List.map_cons, List.cons_append]
      show updatesMono pv ({ status := some "analyzing", progress := some p } :: _)
      simp only [updatesMono]
      exact ⟨hpv, ih st p tail hrest hhi htail⟩

lemma sessionTrace_progress_head (s : WebSession) (us : List SessionUpdate) :
    ((sessionTrace s us).map WebSession.progress).head? = some s.progress := by
  cases us <;> rfl

lemma trace_chain :
    ∀ (us : List SessionUpdate) (s : WebSession),
    updatesMono s.progress us →
    List.Chain' (· ≤ ·) ((sessionTrace s us).map WebSession.progress) := by
  intro us
  induction us with
  | nil => intro s _; simp [sessionTrace]
  | cons u rest ih =>
    intro s h
    simp only [sessionTrace, List.map_cons]
    rw [List.chain'_cons']
    constructor
    · intro b hb
      rw [sessionTrace_progress_head] at hb
      simp only [Option.mem_def, Option.some.injEq] at hb
      subst hb
      show s.progress ≤ (updateSession s u).progress
      simp only [updatesMono] at h
      rcases hu : u.progress with _ | p
      · simp [updateSession, hu]
      · rw [hu] at h
        simpa [updateSession, hu] using h.1
    · apply ih
      simp only [updatesMono] at h
      rcases hu : u.progress with _ | p
      · rw [hu] at h
        simpa [updateSession, hu] using h
      · rw [hu] at h
        simpa [updateSession, hu] using h.2

lemma stageStatus_not_terminal (st : Stage) :
    isTerminalStatus (stageStatus st) = false := by
  cases st <;> rfl

lemma invariant_along (outcome : Except String String) :
    ∀ (evs : List AnalyzerEvent) (s : WebSession),
    s.results = none → s.error = none → isTerminalStatus s.status = false →
    ∀ x ∈ sessionTrace s (evs.map analyzerUpdate ++ [finalUpdate outcome]),
      resultErrorInvariant x := by
  intro evs
  induction evs with
  | nil =>
    intro s hres herr hterm x hx
    simp [sessionTrace] at hx
    rcases hx with rfl | rfl
    · simp [resultErrorInvariant, hterm, hres, herr]
    · rcases outcome with m | r
      · simp [resultErrorInvariant, updateSession, finalUpdate, isTerminalStatus,
              hres, herr]
      · simp [resultErrorInvariant, updateSession, finalUpdate, isTerminalStatus,
              hres, herr]
  | cons ev rest ih =>
    intro s hres herr hterm x hx
    simp only [List.map_cons, List.cons_append, sessionTrace, List.mem_cons] at hx
    rcases hx with rfl | hx
    · simp [resultErrorInvariant, hterm, hres, herr]
    · refine ih (updateSession s (analyzerUpdate ev)) ?_ ?_ ?_ x hx
      · cases ev <;> simp [updateSession, analyzerUpdate, hres]
      · cases ev <;> simp [updateSession, analyzerUpdate, herr]
      · cases ev with
        | progressEv st p => simp [updateSession, analyzerUpdate, isTerminalStatus]
        | statusEv st =>
          simpa [updateSession, analyzerUpdate] using stageStatus_not_terminal st

/-! ## Claim theorems -/

/-- C6: for the `summary` strategy with video duration 300 seconds, the
produced capture plan has exactly 5 timestamp capture points at the values
0, 60, 150, 240 and 285 seconds, each within the interval from 0 to 300. -/
theorem summary_plan_300 :
    (createSummaryCapturePlan 300).capturePoints.map CapturePoint.kind
      = [CPKind.timestamp 0, CPKind.timestamp 60, CPKind.timestamp 150,
         CPKind.timestamp 240, CPKind.timestamp 285]
    ∧ (createSummaryCapturePlan 300).capturePoints.length = 5
    ∧ timestampsWithin (createSummaryCapturePlan 300) 0 300 = true := by
  refine ⟨?_, rfl, ?_⟩
  · norm_num [createSummaryCapturePlan, max_def]
  · simp only [timestampsWithin, createSummaryCapturePlan, List.all_cons, List.all_nil]
    norm_num

/-- C8 counterexample: an explicit confidence token above 100 is returned
unclamped, so the derived confidence does not always lie in the range
0 to 100. -/
theorem extractConfidence_over_100_cex :
    extractConfidence "confidence: 150%" = 150
      ∧ ¬ extractConfidence "confidence: 150%" ≤ 100 := by
  constructor
  · decide
  · decide

/-- C8 (amended): the derived confidence is the integer parsed from an
explicit confidence token when one is present (with no clamping, so it can
exceed 100); otherwise it is one of the heuristic tiers 85, 70 and 60
selected by response length and hedge-word absence, each of which lies in
the range 0 to 100. -/
theorem extractConfidence_spec (s : String) :
    (∀ n, findConfidenceToken s.data = some n → extractConfidence s = n)
    ∧ (findConfidenceToken s.data = none →
        (extractConfidence s = 85 ∨ extractConfidence s = 70 ∨ extractConfidence s = 60)
          ∧ extractConfidence s ≤ 100) := by
  constructor
  · intro n h
    simp [extractConfidence, h]
  · intro h
    simp only [extractConfidence, h]
    constructor
    · split_ifs <;> simp
    · split_ifs <;> norm_num

theorem extractConfidence_spec_witness :
    extractConfidence "confidence: 42%" = 42
    ∧ (extractConfidence "too short" = 85 ∨ extractConfidence "too short" = 70
        ∨ extractConfidence "too short" = 60) :=
  ⟨(extractConfidence_spec "confidence: 42%").1 42 (by decide),
   ((extractConfidence_spec "too short").2 (by decide)).1⟩

/-- C7 counterexample: with the duration unavailable (no video info) but the
AI strategy consultation succeeding, planning does not fall back to the
minimal 3-point plan: a summarization prompt still yields the 5-point
summary plan (the missing duration is replaced by the 300-second default). -/
theorem determineCapturePlan_no_duration_cex :
    (determineCapturePlan (Except.ok "advice") none "summarize the video").strategy
        = "summary"
    ∧ (determineCapturePlan (Except.ok "advice") none "summarize the video"
        ).capturePoints.length = 5
    ∧ (determineCapturePlan (Except.ok "advice") none "summarize the video").strategy
        ≠ "fallback" := by
  refine ⟨by decide, by decide, by decide⟩

/-- C7 (amended): capture planning never fails — for every video metadata
(with nonnegative duration when present) and user prompt it returns a plan
with at least one capture point — and it falls back to the minimal 3-point
start/middle/end plan exactly when the AI strategy consultation fails; an
unavailable duration alone does not trigger the fallback (a 300-second
default is substituted instead). -/
theorem determineCapturePlan_total_and_fallback (strategyCall : Except String String)
    (videoInfo : Option VideoInfo) (userPrompt : String)
    (hdur : ∀ v, videoInfo = some v → ∀ d, v.duration = some d → 0 ≤ d) :
    (∀ e, strategyCall = Except.error e →
        determineCapturePlan strategyCall videoInfo userPrompt
            = createSimpleFallbackPlan videoInfo
          ∧ (determineCapturePlan strategyCall videoInfo userPrompt
              ).capturePoints.length = 3)
    ∧ (determineCapturePlan strategyCall videoInfo userPrompt).capturePoints ≠ [] := by
  constructor
  · rintro e rfl
    exact ⟨rfl, rfl⟩
  · cases strategyCall with
    | error e => simp [determineCapturePlan, createSimpleFallbackPlan]
    | ok a =>
      show (enhancePlanWithAI (createBasePlan videoInfo userPrompt) a).capturePoints ≠ []
      have : (enhancePlanWithAI (createBasePlan videoInfo userPrompt) a).capturePoints
          = (createBasePlan videoInfo userPrompt).capturePoints := rfl
      rw [this]
      exact createBasePlan_ne_nil videoInfo userPrompt hdur

theorem determineCapturePlan_total_and_fallback_witness :
    determineCapturePlan (Except.error "agent down") (some { duration := some 120 }) "x"
        = createSimpleFallbackPlan (some { duration := some 120 })
    ∧ (determineCapturePlan (Except.ok "tip") (some { duration := some 120 })
        "show the timeline").capturePoints ≠ [] := by
  have hdur : ∀ v, (some { duration := some 120 } : Option VideoInfo) = some v →
      ∀ d, v.duration = some d → 0 ≤ d := by
    intro v hv d hd
    injection hv with h1
    subst h1
    simp only [Option.some.injEq] at hd
    subst hd
    norm_num
  exact ⟨((determineCapturePlan_total_and_fallback _ _ "x" hdur).1 "agent down" rfl).1,
         (determineCapturePlan_total_and_fallback _ _ "show the timeline" hdur).2⟩

/-- C9 (code bug): the DELETE route's "cancellation" only removes the
session record from the map and replies with a success message; it does not
mark any session `cancelled`, does not signal the in-flight analysis to
stop, and does not release the browser resource — for every server state
those components are untouched.  (The source itself carries the comment
`TODO: Actually cancel the running analysis`.) -/
theorem cancelRoute_does_not_cancel :
    (let inflight : ServerState :=
      { sessions := [("s1", { status := "analyzing", progress := 50, prompt := "p" })],
        analysisRunning := true, browserReleased := false }
     (cancelRoute inflight "s1").1 = (200, "Analysis cancelled successfully")
      ∧ (cancelRoute inflight "s1").2.analysisRunning = true
      ∧ (cancelRoute inflight "s1").2.browserReleased = false
      ∧ (cancelRoute inflight "s1").2.sessions = [])
    ∧ ∀ (st : ServerState) (sessionId : String),
        (cancelRoute st sessionId).2.analysisRunning = st.analysisRunning
        ∧ (cancelRoute st sessionId).2.browserReleased = st.browserReleased
        ∧ (cancelRoute st sessionId).2.sessions.Sublist st.sessions := by
  constructor
  · exact ⟨by decide, by decide, by decide, by decide⟩
  · intro st sessionId
    unfold cancelRoute deleteSession
    rcases h : alookup sessionId st.sessions with _ | s
    · exact ⟨rfl, rfl, List.Sublist.refl _⟩
    · exact ⟨rfl, rfl, List.filter_sublist _⟩

lemma isValidAnalysis_eq_false (a : FrameAnalysis) :
    isValidAnalysis a = false
      ↔ (strTruthy a.error = true ∨ strTruthy a.analysis = false) := by
  unfold isValidAnalysis
  cases h1 : strTruthy a.error <;> cases h2 : strTruthy a.analysis <;> simp

/-- C1 counterexample: a frame analysis with a null `error` but no analysis
text still makes synthesis fail with `NoValidInput`, although not every input
analysis carries a non-null error and the synthesis inference call would
succeed — refuting the claimed equivalence. -/
theorem synthesizeResults_iff_cex :
    ({ frame := "f1" } : FrameAnalysis).error = none
    ∧ synthesizeResults (Except.ok "fine") "summarize" [{ frame := "f1" }]
        = Except.error SynthesisError.noValidInput :=
  ⟨rfl, rfl⟩

/-- C1 (amended): `synthesizeResults` fails with `NoValidInput` if and only
if every input analysis carries a truthy `error` or lacks truthy analysis
text; and whenever some input analysis is valid (null error and analysis
text present) and the synthesis inference call succeeds, a
`SynthesizedResult` is returned. -/
theorem synthesizeResults_noValidInput_iff (synthesisCall : Except String String)
    (userPrompt : String) (l : List FrameAnalysis) :
    (synthesizeResults synthesisCall userPrompt l
          = Except.error SynthesisError.noValidInput
      ↔ ∀ a ∈ l, strTruthy a.error = true ∨ strTruthy a.analysis = false)
    ∧ ((∃ a ∈ l, isValidAnalysis a = true) → ∀ text,
        synthesisCall = Except.ok text →
        (synthesizeResults synthesisCall userPrompt l).isOk = true) := by
  constructor
  · rcases hemp : (l.filter isValidAnalysis).isEmpty with _ | _
    · -- some analysis is valid: the run does not fail with NoValidInput,
      -- and the right-hand side is false as well
      rw [List.isEmpty_eq_false] at hemp
      rcases List.exists_mem_of_ne_nil _ hemp with ⟨a, ha⟩
      rcases List.mem_filter.mp ha with ⟨hal, hav⟩
      apply iff_of_false
      · simp only [synthesizeResults]
        rw [List.isEmpty_eq_false.mpr hemp]
        simp only [Bool.false_eq_true, if_false]
        cases synthesisCall <;> simp
      · intro hall
        rcases hall a hal with h | h
        · simp [isValidAnalysis, h] at hav
        · simp [isValidAnalysis, h] at hav
    · -- no analysis is valid
      rw [List.isEmpty_iff] at hemp
      apply iff_of_true
      · simp only [synthesizeResults]
        rw [hemp]
        simp
      · intro a hal
        have : isValidAnalysis a = false := by
          by_contra hv
          rw [Bool.not_eq_false] at hv
          have : a ∈ l.filter isValidAnalysis := List.mem_filter.mpr ⟨hal, hv⟩
          rw [hemp] at this
          simp at this
        exact (isValidAnalysis_eq_false a).mp this
  · rintro ⟨a, hal, hav⟩ text rfl
    have hne : l.filter isValidAnalysis ≠ [] := by
      intro h
      have : a ∈ l.filter isValidAnalysis := List.mem_filter.mpr ⟨hal, hav⟩
      rw [h] at this
      simp at this
    simp only [synthesizeResults]
    rw [List.isEmpty_eq_false.mpr hne]
    rfl

theorem synthesizeResults_noValidInput_iff_witness :
    (synthesizeResults (Except.ok "done") "p"
      [{ frame := "f", analysis := some "text" }]).isOk = true :=
  (synthesizeResults_noValidInput_iff (Except.ok "done") "p"
      [{ frame := "f", analysis := some "text" }]).2
    ⟨{ frame := "f", analysis := some "text" }, List.mem_singleton.mpr rfl, by decide⟩
    "done" rfl

/-- C3 counterexample: with caching enabled, analyzing the same frame with
the same prompt twice issues two inference calls when the first call fails
(an errored attempt is never cached), refuting "at most one network call"
as universally stated. -/
theorem analyzeFrame_two_calls_after_failure :
    (analyzeFrame true (fun _ => InferOutcome.fail "rate limited")
        ((analyzeFrame true (fun _ => InferOutcome.fail "rate limited")
          {} { filename := some "shot1.png" } "summarize" 1).2)
        { filename := some "shot1.png" } "summarize" 1).2.calls = 2
    ∧ ¬ (analyzeFrame true (fun _ => InferOutcome.fail "rate limited")
        ((analyzeFrame true (fun _ => InferOutcome.fail "rate limited")
          {} { filename := some "shot1.png" } "summarize" 1).2)
        { filename := some "shot1.png" } "summarize" 1).2.calls ≤ 1 := by
  constructor
  · decide
  · decide

/-- C3 (amended): with caching enabled, when the first per-frame analysis of
`(f, p)` succeeds, repeating the identical analysis is a cache hit: the
second invocation returns the same `FrameAnalysis` and leaves the state —
including the inference-call counter — unchanged, so at most one network
call is issued for the pair.  (After a failed first attempt, nothing is
cached and a repeat issues a new call.) -/
lemma analyzeFrame_hit (client : Nat → InferOutcome) (st : DAState) (f : Frame)
    (userPrompt : String) (frameNumber : Nat) (cached : FrameAnalysis)
    (hl : alookup (daCacheKey f frameNumber userPrompt) st.cache = some cached) :
    analyzeFrame true client st f userPrompt frameNumber = (Except.ok cached, st) := by
  unfold analyzeFrame
  simp [hl]

lemma analyzeFrame_miss_ok (client : Nat → InferOutcome) (st : DAState) (f : Frame)
    (userPrompt : String) (frameNumber : Nat) (text : String)
    (hl : alookup (daCacheKey f frameNumber userPrompt) st.cache = none)
    (hc : client st.calls = InferOutcome.ok text) :
    analyzeFrame true client st f userPrompt frameNumber
      = (Except.ok (mkFrameRecord f frameNumber userPrompt text),
         { cache := (daCacheKey f frameNumber userPrompt,
              mkFrameRecord f frameNumber userPrompt text) :: st.cache,
           calls := st.calls + 1 }) := by
  unfold analyzeFrame
  simp [hl, hc]

lemma analyzeFrame_miss_fail (client : Nat → InferOutcome) (st : DAState) (f : Frame)
    (userPrompt : String) (frameNumber : Nat) (e : String)
    (hl : alookup (daCacheKey f frameNumber userPrompt) st.cache = none)
    (hc : client st.calls = InferOutcome.fail e) :
    analyzeFrame true client st f userPrompt frameNumber
      = (Except.error ("Frame analysis failed: AI analysis failed: " ++ e),
         { cache := st.cache, calls := st.calls + 1 }) := by
  unfold analyzeFrame
  simp [hl, hc]

lemma analyzeFrame_miss_thrown (client : Nat → InferOutcome) (st : DAState) (f : Frame)
    (userPrompt : String) (frameNumber : Nat) (m : String)
    (hl : alookup (daCacheKey f frameNumber userPrompt) st.cache = none)
    (hc : client st.calls = InferOutcome.thrown m) :
    analyzeFrame true client st f userPrompt frameNumber
      = (Except.error ("Frame analysis failed: " ++ m),
         { cache := st.cache, calls := st.calls + 1 }) := by
  unfold analyzeFrame
  simp [hl, hc]

theorem analyzeFrame_cache_hit (client : Nat → InferOutcome) (st : DAState)
    (f : Frame) (userPrompt : String) (frameNumber : Nat) (r : FrameAnalysis)
    (h : (analyzeFrame true client st f userPrompt frameNumber).1 = Except.ok r) :
    analyzeFrame true client (analyzeFrame true client st f userPrompt frameNumber).2
        f userPrompt frameNumber
      = (Except.ok r, (analyzeFrame true client st f userPrompt frameNumber).2) := by
  rcases hl : alookup (daCacheKey f frameNumber userPrompt) st.cache with _ | cached
  · rcases hc : client st.calls with text | e | m
    · have h1 := analyzeFrame_miss_ok client st f userPrompt frameNumber text hl hc
      rw [h1] at h ⊢
      simp only [Except.ok.injEq] at h
      subst h
      rw [analyzeFrame_hit _ _ _ _ _ (mkFrameRecord f frameNumber userPrompt text)
        (by simp [alookup])]
    · have h1 := analyzeFrame_miss_fail client st f userPrompt frameNumber e hl hc
      rw [h1] at h
      simp at h
    · have h1 := analyzeFrame_miss_thrown client st f userPrompt frameNumber m hl hc
      rw [h1] at h
      simp at h
  · have h1 := analyzeFrame_hit client st f userPrompt frameNumber cached hl
    rw [h1] at h ⊢
    simp only [Except.ok.injEq] at h
    subst h
    exact analyzeFrame_hit client st f userPrompt frameNumber _ hl

theorem analyzeFrame_cache_hit_witness :
    analyzeFrame true (fun _ => InferOutcome.ok "all good")
        ((analyzeFrame true (fun _ => InferOutcome.ok "all good") {} {} "go" 1).2)
        {} "go" 1
      = (Except.ok (mkFrameRecord {} 1 "go" "all good"),
         (analyzeFrame true (fun _ => InferOutcome.ok "all good") {} {} "go" 1).2) :=
  analyzeFrame_cache_hit _ _ _ _ _ _ (by rfl)

lemma analyzeFrame_cache_false (client : Nat → InferOutcome) (st : DAState)
    (f : Frame) (userPrompt : String) (frameNumber : Nat) :
    (analyzeFrame false client st f userPrompt frameNumber).2.cache = st.cache
    ∧ (analyzeFrame false client st f userPrompt frameNumber).2.calls = st.calls + 1 := by
  unfold analyzeFrame
  rcases client st.calls <;> simp

lemma analyzeFrame_miss_calls (client : Nat → InferOutcome) (st : DAState)
    (f : Frame) (userPrompt : String) (frameNumber : Nat)
    (hl : alookup (daCacheKey f frameNumber userPrompt) st.cache = none) :
    (analyzeFrame true client st f userPrompt frameNumber).2.calls = st.calls + 1 := by
  unfold analyzeFrame
  rcases client st.calls <;> simp [hl]

lemma analyzeFrame_error_cache (cacheEnabled : Bool) (client : Nat → InferOutcome)
    (st : DAState) (f : Frame) (userPrompt : String) (frameNumber : Nat) (m : String)
    (h : (analyzeFrame cacheEnabled client st f userPrompt frameNumber).1
      = Except.error m) :
    (analyzeFrame cacheEnabled client st f userPrompt frameNumber).2.cache = st.cache := by
  cases cacheEnabled with
  | false => exact (analyzeFrame_cache_false client st f userPrompt frameNumber).1
  | true =>
    rcases hl : alookup (daCacheKey f frameNumber userPrompt) st.cache with _ | cached
    · rcases hc : client st.calls with text | e | m2
      · rw [analyzeFrame_miss_ok client st f userPrompt frameNumber text hl hc] at h
        simp at h
      · rw [analyzeFrame_miss_fail client st f userPrompt frameNumber e hl hc]
      · rw [analyzeFrame_miss_thrown client st f userPrompt frameNumber m2 hl hc]
    · rw [analyzeFrame_hit client st f userPrompt frameNumber cached hl] at h
      simp at h

/-- C10: the analysis caches only ever contain successful analyses.  The
`DynamicAnalyzer` cache invariant (no errored record, analysis text present)
is preserved by `analyzeFrame`; a per-frame analysis that fails leaves the
cache unchanged, so repeating it issues a new inference call (two calls in
total rather than a cached failure); and the VLM batch analyzer preserves
its own only-successes cache invariant. -/
theorem cache_only_successes (cacheEnabled : Bool) (client : Nat → InferOutcome)
    (st : DAState) (f : Frame) (userPrompt : String) (frameNumber : Nat)
    (hst : daCacheOnlySuccess st.cache) :
    daCacheOnlySuccess
        (analyzeFrame cacheEnabled client st f userPrompt frameNumber).2.cache
    ∧ (∀ m, (analyzeFrame cacheEnabled client st f userPrompt frameNumber).1
          = Except.error m →
        (analyzeFrame cacheEnabled client st f userPrompt frameNumber).2.cache
          = st.cache)
    ∧ (alookup (daCacheKey f frameNumber userPrompt) st.cache = none →
        ∀ m, (analyzeFrame cacheEnabled client st f userPrompt frameNumber).1
            = Except.error m →
        (analyzeFrame cacheEnabled client
            (analyzeFrame cacheEnabled client st f userPrompt frameNumber).2
            f userPrompt frameNumber).2.calls = st.calls + 2)
    ∧ (∀ (batchSize : Nat) (t : String) (client2 : Nat → InferOutcome)
          (cache : VLMCache) (screenshots : List Screenshot),
        vlmCacheInv t cache →
        vlmCacheInv t
          (analyzeContentBatch batchSize cacheEnabled client2 cache screenshots t).2) := by
  refine ⟨?_, ?_, ?_, ?_⟩
  · cases cacheEnabled with
    | false =>
      rw [(analyzeFrame_cache_false client st f userPrompt frameNumber).1]
      exact hst
    | true =>
      rcases hl : alookup (daCacheKey f frameNumber userPrompt) st.cache with _ | cached
      · rcases hc : client st.calls with text | e | m2
        · rw [analyzeFrame_miss_ok client st f userPrompt frameNumber text hl hc]
          intro e he
          rcases List.mem_cons.mp he with rfl | he2
          · exact ⟨rfl, rfl⟩
          · exact hst e he2
        · rw [analyzeFrame_miss_fail client st f userPrompt frameNumber e hl hc]
          exact hst
        · rw [analyzeFrame_miss_thrown client st f userPrompt frameNumber m2 hl hc]
          exact hst
      · rw [analyzeFrame_hit client st f userPrompt frameNumber cached hl]
        exact hst
  · intro m h
    exact analyzeFrame_error_cache cacheEnabled client st f userPrompt frameNumber m h
  · intro hl m h
    have hcache :
        (analyzeFrame cacheEnabled client st f userPrompt frameNumber).2.cache
          = st.cache :=
      analyzeFrame_error_cache cacheEnabled client st f userPrompt frameNumber m h
    cases cacheEnabled with
    | false =>
      rw [(analyzeFrame_cache_false client _ f userPrompt frameNumber).2,
        (analyzeFrame_cache_false client st f userPrompt frameNumber).2]
    | true =>
      rw [analyzeFrame_miss_calls client _ f userPrompt frameNumber (by rw [hcache]; exact hl),
        analyzeFrame_miss_calls client st f userPrompt frameNumber hl]
  · intro batchSize t client2 cache screenshots hinv
    exact (runVLMChunks_spec cacheEnabled t client2 _ cache hinv).2

theorem cache_only_successes_witness :
    (analyzeFrame true (fun _ => InferOutcome.fail "boom")
        ((analyzeFrame true (fun _ => InferOutcome.fail "boom") {} {} "p" 1).2)
        {} "p" 1).2.calls = 0 + 2 :=
  ((cache_only_successes true (fun _ => InferOutcome.fail "boom") {} {} "p" 1
      (by intro e he; simp at he)).2.2.1 rfl
    "Frame analysis failed: AI analysis failed: boom" rfl)

/-- C2: batch analysis returns one result per input frame, in input order,
for every inference oracle — including oracles that fail or throw on any
subset of frames, so one frame's failure never prevents the others from
producing a result.  For the VLM batch this is stated as the result list's
filenames matching the input filenames positionally (given the cache
invariant, trivially satisfied by an empty cache); the `DynamicAnalyzer`
per-frame loop preserves the frame count for every oracle, cache and flag,
and in an uncached run its entries carry the input frames' display names in
input order. -/
theorem analyzeBatch_length_order (batchSize : Nat) (cacheEnabled : Bool)
    (client : Nat → InferOutcome) (cache : VLMCache)
    (screenshots : List Screenshot) (analysisType : String)
    (hinv : vlmCacheInv analysisType cache) :
    (analyzeContentBatch batchSize cacheEnabled client cache screenshots
        analysisType).1.map BatchResult.filename
      = screenshots.map Screenshot.filename
    ∧ (∀ (ce2 : Bool) (client2 : Nat → InferOutcome) (p : String) (st : DAState)
          (frames : List Frame) (i : Nat),
        (frameLoop ce2 client2 p st frames i).1.length = frames.length)
    ∧ (∀ (client2 : Nat → InferOutcome) (p : String) (st : DAState)
          (frames : List Frame) (i : Nat),
        (frameLoop false client2 p st frames i).1.map FrameAnalysis.frame
          = (List.enumFrom i frames).map fun q => frameName q.2 (q.1 + 1)) := by
  refine ⟨?_, ?_, ?_⟩
  · unfold analyzeContentBatch
    rw [(runVLMChunks_spec cacheEnabled analysisType client
        (chunkList batchSize screenshots.enum) cache hinv).1,
      chunkList_join, enum_map_snd_filename]
  · exact fun ce2 client2 p st frames i => frameLoop_length ce2 client2 p frames st i
  · exact fun client2 p st frames i =>
      frameLoop_map_frame_uncached client2 p frames st i

theorem analyzeBatch_length_order_witness :
    (analyzeContentBatch 2 true
        (fun i => if i = 1 then InferOutcome.fail "http 429"
          else InferOutcome.ok "looks fine") []
        [{ filename := "a.png" }, { filename := "b.png" }, { filename := "c.png" }]
        "comprehensive").1.map BatchResult.filename
      = ["a.png", "b.png", "c.png"] := by
  rw [(analyzeBatch_length_order 2 true
      (fun i => if i = 1 then InferOutcome.fail "http 429"
        else InferOutcome.ok "looks fine") []
      [{ filename := "a.png" }, { filename := "b.png" }, { filename := "c.png" }]
      "comprehensive" (by intro e he; simp at he)).1]
  rfl

lemma updatesMono_start (evs : List AnalyzerEvent) (outcome : Except String String)
    (h : stageEventsOK Stage.navigating 10 evs) :
    updatesMono 0 (startAnalysisUpdates evs outcome) := by
  refine ⟨Nat.le_refl 0, Nat.zero_le 10, ?_⟩
  apply stage_updatesMono evs Stage.navigating 10 _ h (by norm_num [stageHi])
  intro c hc
  cases outcome with
  | ok r => exact ⟨hc, trivial⟩
  | error m => trivial

/-- C4 (spec-modelled analyzer stages): along every `startAnalysis` run —
initial reset, `navigating`/10, analyzer progress and status events obeying
the spec's per-stage floors and ceilings, then the terminal update — the
session's progress values form a non-decreasing sequence. -/
theorem progress_monotone (prompt : String) (evs : List AnalyzerEvent)
    (outcome : Except String String)
    (h : stageEventsOK Stage.navigating 10 evs) :
    List.Chain' (· ≤ ·)
      ((sessionTrace (createSession prompt) (startAnalysisUpdates evs outcome)).map
        WebSession.progress) := by
  apply trace_chain
  show updatesMono 0 (startAnalysisUpdates evs outcome)
  exact updatesMono_start evs outcome h

theorem progress_monotone_witness :
    List.Chain' (· ≤ ·)
      ((sessionTrace (createSession "p")
          (startAnalysisUpdates
            [AnalyzerEvent.progressEv Stage.capturing 50,
             AnalyzerEvent.statusEv Stage.synthesizing,
             AnalyzerEvent.progressEv Stage.synthesizing 95]
            (Except.ok "r"))).map WebSession.progress) :=
  progress_monotone "p" _ _
    ⟨Or.inl ⟨by decide, by decide⟩, by decide,
     Or.inl ⟨by decide, by decide⟩, by decide, trivial⟩

/-- C5 (spec-modelled analyzer events): every state a session passes through
during a `startAnalysis` run satisfies the result/error invariant — a
terminal session (`completed` or `failed`) carries exactly one of a result
and an error, and a non-terminal one carries neither. -/
theorem session_result_error_invariant (prompt : String) (evs : List AnalyzerEvent)
    (outcome : Except String String) :
    ∀ x ∈ sessionTrace (createSession prompt) (startAnalysisUpdates evs outcome),
      resultErrorInvariant x := by
  intro x hx
  unfold startAnalysisUpdates at hx
  simp only [sessionTrace, List.mem_cons] at hx
  rcases hx with rfl | hx
  · simp [resultErrorInvariant, createSession, isTerminalStatus]
  · rcases hx with rfl | hx
    · simp [resultErrorInvariant, createSession, updateSession, isTerminalStatus]
    · exact invariant_along outcome evs _ (by rfl) (by rfl) (by rfl) x hx

theorem session_result_error_invariant_witness :
    resultErrorInvariant
      { status := "completed", progress := 100, results := some "r",
        error := none, prompt := "p" } :=
  session_result_error_invariant "p" [] (Except.ok "r") _ (by decide)
